import Mathlib

/-
Verification of the CFNgin hook-driven stack-lifecycle controller
(src/runway/cfngin/hooks/base.py) against its specification.

The Python source is shallowly embedded: pure expressions become Lean
functions, the polling loop of Hook._wait_for_stack becomes a recursion
on the list of results the action will return on its successive
invocations, and raised exceptions become explicit RunResult values.
An action (HookDeployAction / HookDestroyAction) is abstracted by the
sequence of Status values its successive run calls return; the embedding
additionally records the status argument passed to each run call, so that
claims about the number and shape of action invocations can be stated.
-/

namespace Runway

/-- Model of a Python dict from str to str, as an association list in
insertion order. Lookup returns the value of the first entry with the key. -/
abbrev StrMap := List (String × String)

/-- Lookup in a StrMap: first entry whose key matches. -/
def StrMap.get : StrMap → String → Option String
  | [], _ => none
  | e :: rest, k => if e.1 = k then some e.2 else StrMap.get rest k

/-- Model of Python dict.update and of the expression dict(base, **upd):
every key of base keeps its position but takes the value from upd when upd
defines it, and entries of upd whose keys are new are appended in order. -/
def StrMap.update (base upd : StrMap) : StrMap :=
  base.map (fun e => (e.1, (StrMap.get upd e.1).getD e.2))
    ++ upd.filter (fun e => (StrMap.get base e.1).isNone)

/-- Modelled from the spec: runway.cfngin.status is not under src/. A Status
is an immutable lifecycle state with a stable integer code, a short symbolic
name, and an optional free-text reason; equality between Status values is by
code alone. -/
structure Status where
  code : Nat
  name : String
  reason : Option String := none
deriving Repr, DecidableEq

/-- Modelled from the spec: the distinguished initial status. -/
def PENDING : Status := { code := 0, name := "pending" }

/-- Modelled from the spec: work accepted by the provider. -/
def SUBMITTED : Status := { code := 1, name := "submitted" }

/-- Modelled from the spec: terminal success. -/
def COMPLETE : Status := { code := 2, name := "complete" }

/-- Modelled from the spec: no-op, short-circuit terminal for polling. -/
def SKIPPED : Status := { code := 3, name := "skipped" }

/-- Modelled from the spec: terminal failure. -/
def FAILED : Status := { code := 4, name := "failed" }

/-- Modelled from the spec: runway.cfngin.stack is not under src/. The
in-memory descriptor of the managed unit: a name and the fully-qualified
name the context derives for error messages. -/
structure Stack where
  name : String
  fqn : String
deriving Repr, DecidableEq

/-- Log severities used by Hook._log_stack and the debug heartbeat of
Hook._wait_for_stack. -/
inductive Severity where
  | notice
  | success
  | error
  | info
  | debug
deriving Repr, DecidableEq

/-- One emitted log line: its severity and its message text. -/
structure LogEntry where
  severity : Severity
  msg : String
deriving Repr, DecidableEq

/-- Python truthiness of an optional string: None and the empty string are
falsy, every other string is truthy. -/
def truthyStr : Option String → Bool
  | some r => !(r = "")
  | none => false

/-- The reason suffix of a log message: Hook._log_stack appends
" (reason)" when status.reason is truthy. -/
def reasonSuffix : Option String → String
  | some r => if r = "" then "" else " (" ++ r ++ ")"
  | none => ""

/-- Embedding of Hook._log_stack: builds the message
stack.name ++ ":" ++ status.name, appends the reason when truthy, and picks
the severity by comparing status.code with the distinguished codes. -/
def log_stack (stack : Stack) (status : Status) : LogEntry :=
  let msg := stack.name ++ ":" ++ status.name ++ reasonSuffix status.reason
  if status.code = SUBMITTED.code then { severity := Severity.notice, msg := msg }
  else if status.code = COMPLETE.code then { severity := Severity.success, msg := msg }
  else if status.code = FAILED.code then { severity := Severity.error, msg := msg }
  else { severity := Severity.info, msg := msg }

/-- The debug heartbeat line emitted inside the polling loop. -/
def debugEntry : LogEntry :=
  { severity := Severity.debug, msg := "waiting for stack to complete..." }

/-- Outcome of a deploy_stack / destroy_stack / _wait_for_stack call:
a returned Status, a raised StackFailed (carrying the fully-qualified stack
name and the status reason), a raised ValueError, or noFuel when the
modelled action result sequence is exhausted while the loop would continue
(the Python loop would keep polling). -/
inductive RunResult where
  | status (s : Status)
  | stackFailed (stackName : String) (statusReason : Option String)
  | valueError (m : String)
  | noFuel
deriving Repr, DecidableEq

/-- The early-exit test of Hook._wait_for_stack:
(till_reason and status.reason) and status.reason == till_reason, with
Python truthiness on both optional strings. -/
def tillReasonHit (tillReason statusReason : Option String) : Bool :=
  truthyStr tillReason && truthyStr statusReason && (statusReason == tillReason)

/-- The reason-change test of Hook._wait_for_stack:
last_status and last_status.reason != status.reason. -/
def reasonChanged (lastStatus : Option Status) (status : Status) : Bool :=
  match lastStatus with
  | some ls => !(ls.reason == status.reason)
  | none => false

/-- Embedding of the while-loop body of Hook._wait_for_stack, together with
the final log line and the StackFailed raise after the loop. The first list
holds the results the action returns on its successive run invocations;
the returned triple is the emitted log lines, the status arguments passed
to the successive run invocations, and the outcome. -/
def wait_loop (stack : Stack) (tillReason : Option String) :
    List Status → Option Status → Status → List LogEntry × List Status × RunResult
  | results, lastStatus, status =>
    if status.code = COMPLETE.code ∨ status.code = FAILED.code then
      ([log_stack stack status], [],
        if status.code = FAILED.code then
          RunResult.stackFailed stack.fqn status.reason
        else RunResult.status status)
    else if tillReasonHit tillReason status.reason then
      ([log_stack stack status], [],
        if status.code = FAILED.code then
          RunResult.stackFailed stack.fqn status.reason
        else RunResult.status status)
    else
      let changed := reasonChanged lastStatus status
      let preLogs := if changed then [log_stack stack status] else []
      let lastStatus2 := if changed then some status else lastStatus
      match results with
      | [] => (preLogs ++ [debugEntry], [], RunResult.noFuel)
      | r :: rs =>
        let next := wait_loop stack tillReason rs lastStatus2 r
        (preLogs ++ debugEntry :: next.1, status :: next.2.1, next.2.2)

/-- Embedding of Hook._wait_for_stack: status defaults to SUBMITTED when
last_status is falsy, the stack argument falls back to the held stack, and
a missing stack raises ValueError before any action invocation. -/
def wait_for_stack (heldStack : Option Stack) (results : List Status)
    (lastStatus : Option Status) (stackArg : Option Stack)
    (tillReason : Option String) : List LogEntry × List Status × RunResult :=
  let status := match lastStatus with
    | some ls => ls
    | none => SUBMITTED
  match (match stackArg with | some s => some s | none => heldStack) with
  | none => ([], [], RunResult.valueError "stack required")
  | some stack => wait_loop stack tillReason results lastStatus status

/-- Embedding of Hook._run_stack_action: resolve the stack (explicit argument,
else the held stack, else raise ValueError), invoke the action once with
status PENDING, log the result, and when wait is true and the result is not
SKIPPED (Status equality is by code) enter Hook._wait_for_stack seeded with
that result. The action is abstracted by the list of results its successive
run invocations return; the returned triple is the log lines, the status
arguments passed to run, and the outcome. -/
def run_stack_action (heldStack : Option Stack) (results : List Status)
    (stackArg : Option Stack) (wait : Bool) : List LogEntry × List Status × RunResult :=
  match (match stackArg with | some s => some s | none => heldStack) with
  | none => ([], [], RunResult.valueError "stack required")
  | some stack =>
    match results with
    | [] => ([], [], RunResult.noFuel)
    | s0 :: rest =>
      let l0 := log_stack stack s0
      if wait && !(s0.code == SKIPPED.code) then
        let w := wait_for_stack heldStack rest (some s0) (some stack) none
        (l0 :: w.1, PENDING :: w.2.1, w.2.2)
      else ([l0], [PENDING], RunResult.status s0)

/-- Embedding of Hook.deploy_stack: delegates to _run_stack_action with the
deploy action (abstracted by its result sequence). -/
def deploy_stack (heldStack : Option Stack) (results : List Status)
    (stackArg : Option Stack) (wait : Bool) : List LogEntry × List Status × RunResult :=
  run_stack_action heldStack results stackArg wait

/-- Embedding of Hook.destroy_stack: delegates to _run_stack_action with the
destroy action (abstracted by its result sequence). -/
def destroy_stack (heldStack : Option Stack) (results : List Status)
    (stackArg : Option Stack) (wait : Bool) : List LogEntry × List Status × RunResult :=
  run_stack_action heldStack results stackArg wait

/-- Opaque collaborator: the provider instance held by the hook. This core
never inspects it; a tag suffices for frame reasoning. -/
structure Provider where
  tag : Nat
deriving Repr, DecidableEq

/-- Opaque collaborator: the blueprint optionally held by the hook. -/
structure Blueprint where
  tag : Nat
deriving Repr, DecidableEq

/-- The context collaborator: supplies the ambient tags. -/
structure CfnginContext where
  tags : StrMap
deriving Repr, DecidableEq

/-- The hook argument model: HookArgsBaseModel with its tags mapping. -/
structure HookArgsBaseModel where
  tags : StrMap
deriving Repr, DecidableEq

/-- The fields the Hook instance holds between calls. -/
structure HookState where
  args : HookArgsBaseModel
  blueprint : Option Blueprint
  context : CfnginContext
  provider : Provider
  stack : Option Stack
  stack_name : String
deriving Repr, DecidableEq

/-- State-threaded embedding of Hook.deploy_stack: the method reads
self.stack but assigns no attribute of self, so the state passes through
to the result unchanged. -/
def HookState.deploy_stackS (h : HookState) (results : List Status)
    (stackArg : Option Stack) (wait : Bool) :
    HookState × List LogEntry × List Status × RunResult :=
  (h, run_stack_action h.stack results stackArg wait)

/-- State-threaded embedding of Hook.destroy_stack. -/
def HookState.destroy_stackS (h : HookState) (results : List Status)
    (stackArg : Option Stack) (wait : Bool) :
    HookState × List LogEntry × List Status × RunResult :=
  (h, run_stack_action h.stack results stackArg wait)

/-- The tag handling of Hook.__init__: kwargs.setdefault of tags to the
empty dict, parse, then self.args.tags.update(context.tags). Returns the
value self.args.tags holds after construction. -/
def hook_init_args_tags (contextTags : StrMap) (kwargsTags : StrMap) : StrMap :=
  StrMap.update kwargsTags contextTags

/-- The Hook.tags property: Tags(**dict(self.context.tags, **self.args.tags)).
The troposphere Tags wrapper is treated as the underlying key-value mapping. -/
def hook_tags_property (contextTags argsTags : StrMap) : StrMap :=
  StrMap.update contextTags argsTags

/-- The merged tags the Hook.tags property yields on a hook constructed with
the given context tags and hook-argument tags. -/
def hook_tags (contextTags kwargsTags : StrMap) : StrMap :=
  hook_tags_property contextTags (hook_init_args_tags contextTags kwargsTags)

/- Lookup lemmas for the dict model. -/

/-- Lookup after the map step of StrMap.update: keys are preserved and the
value at k becomes the upd value when upd defines k. -/
theorem StrMap.get_map_upd (upd base : StrMap) (k : String) :
    StrMap.get (base.map (fun e => (e.1, (StrMap.get upd e.1).getD e.2))) k
      = (StrMap.get base k).map (fun v => (StrMap.get upd k).getD v) := by
  induction base with
  | nil => simp [StrMap.get]
  | cons e bs ih =>
    by_cases h : e.1 = k
    · subst h
      simp [StrMap.get]
    · simp [StrMap.get, h, ih]

/-- Lookup after the filter step of StrMap.update: only keys absent from
base survive. -/
theorem StrMap.get_filter_new (base upd : StrMap) (k : String) :
    StrMap.get (upd.filter (fun e => (StrMap.get base e.1).isNone)) k
      = if (StrMap.get base k).isNone then StrMap.get upd k else none := by
  induction upd with
  | nil => simp [StrMap.get]
  | cons e us ih =>
    by_cases hk : e.1 = k
    · subst hk
      by_cases hb : (StrMap.get base e.1).isNone
      · simp [List.filter_cons, hb, StrMap.get]
      · simp [List.filter_cons, hb, StrMap.get, ih]
    · by_cases hb : (StrMap.get base e.1).isNone
      · simp [List.filter_cons, hb, StrMap.get, hk, ih]
      · simp [List.filter_cons, hb, StrMap.get, hk, ih]

/-- Lookup distributes over append, preferring the left list. -/
theorem StrMap.get_append (l1 l2 : StrMap) (k : String) :
    StrMap.get (l1 ++ l2) k =
      match StrMap.get l1 k with
      | some v => some v
      | none => StrMap.get l2 k := by
  induction l1 with
  | nil => simp [StrMap.get]
  | cons e rest ih =>
    by_cases h : e.1 = k <;> simp [StrMap.get, h, ih]

/-- Lookup in StrMap.update base upd: the upd value wins, else the base
value — the semantics of Python dict.update and dict(base, **upd). -/
theorem StrMap.get_update (base upd : StrMap) (k : String) :
    StrMap.get (StrMap.update base upd) k =
      match StrMap.get upd k with
      | some v => some v
      | none => StrMap.get base k := by
  unfold StrMap.update
  rw [StrMap.get_append, StrMap.get_map_upd, StrMap.get_filter_new]
  cases hb : StrMap.get base k <;> cases hu : StrMap.get upd k <;> simp [hb, hu]

/-- The merged tags yielded by the Hook.tags property look up as: the context
value when the context defines the key, else the hook-argument value. The
update in Hook.__init__ overwrites hook-argument values with context values,
so context tags take precedence on conflicting keys. -/
theorem hook_tags_get (ctx kw : StrMap) (k : String) :
    StrMap.get (hook_tags ctx kw) k =
      match StrMap.get ctx k with
      | some v => some v
      | none => StrMap.get kw k := by
  unfold hook_tags hook_tags_property hook_init_args_tags
  rw [StrMap.get_update, StrMap.get_update]
  cases hc : StrMap.get ctx k <;> cases hk : StrMap.get kw k <;> simp [hc, hk]

/-- C1: counterexample. For context tags a=1, b=2 and hook-argument tags
b=3, c=4, the merged tags property yields b=2 — the context value — and not
b=3 as the claim states, because Hook.__init__ runs
self.args.tags.update(context.tags), overwriting the hook-supplied b. -/
theorem C1_counterexample :
    StrMap.get (hook_tags [("a", "1"), ("b", "2")] [("b", "3"), ("c", "4")]) "b"
        = some "2" ∧
    ¬ StrMap.get (hook_tags [("a", "1"), ("b", "2")] [("b", "3"), ("c", "4")]) "b"
        = some "3" := by
  decide

/-- C1 (amended): the merged tags property yields the union of context tags
and hook-argument tags with context values taking precedence on conflicting
keys; in particular, for context tags a=1, b=2 and hook-argument tags b=3,
c=4 the result maps a to 1, b to 2 and c to 4. -/
theorem C1_tags_merge :
    (∀ (ctx kw : StrMap) (k : String),
      StrMap.get (hook_tags ctx kw) k =
        match StrMap.get ctx k with
        | some v => some v
        | none => StrMap.get kw k) ∧
    hook_tags [("a", "1"), ("b", "2")] [("b", "3"), ("c", "4")]
      = [("a", "1"), ("b", "2"), ("c", "4")] := by
  exact ⟨hook_tags_get, by decide⟩

/- Unfolding lemmas for the polling loop. -/

/-- One terminal step of the loop: a COMPLETE or FAILED status breaks out
immediately, logs the final line, and raises StackFailed exactly when the
code is the FAILED code. -/
theorem wait_loop_terminal (stack : Stack) (tillReason : Option String)
    (results : List Status) (lastStatus : Option Status) (s : Status)
    (h : s.code = COMPLETE.code ∨ s.code = FAILED.code) :
    wait_loop stack tillReason results lastStatus s =
      ([log_stack stack s], [],
        if s.code = FAILED.code then RunResult.stackFailed stack.fqn s.reason
        else RunResult.status s) := by
  rw [wait_loop]
  exact if_pos h

/-- One early-exit step of the loop: a non-terminal status whose reason hits
till_reason breaks out, logs the final line, and returns the status. -/
theorem wait_loop_till_exit (stack : Stack) (tillReason : Option String)
    (results : List Status) (lastStatus : Option Status) (s : Status)
    (hc : s.code ≠ COMPLETE.code) (hf : s.code ≠ FAILED.code)
    (ht : tillReasonHit tillReason s.reason = true) :
    wait_loop stack tillReason results lastStatus s =
      ([log_stack stack s], [], RunResult.status s) := by
  rw [wait_loop]
  rw [if_neg (by tauto), if_pos ht, if_neg hf]

/-- One continuing step of the loop: a non-terminal status that does not hit
till_reason logs the reason change when there is one, emits the debug
heartbeat, and re-invokes the action with the current status. -/
theorem wait_loop_step (stack : Stack) (tillReason : Option String)
    (results : List Status) (lastStatus : Option Status) (s : Status)
    (hc : s.code ≠ COMPLETE.code) (hf : s.code ≠ FAILED.code)
    (ht : tillReasonHit tillReason s.reason = false) :
    wait_loop stack tillReason results lastStatus s =
      (let changed := reasonChanged lastStatus s
       let preLogs := if changed then [log_stack stack s] else []
       let lastStatus2 := if changed then some s else lastStatus
       match results with
       | [] => (preLogs ++ [debugEntry], [], RunResult.noFuel)
       | r :: rs =>
         let next := wait_loop stack tillReason rs lastStatus2 r
         (preLogs ++ debugEntry :: next.1, s :: next.2.1, next.2.2)) := by
  rw [wait_loop]
  rw [if_neg (by tauto), if_neg (by simp [ht])]

/-- Running the loop from a non-terminal status through a list of
non-terminal results, with no till_reason, reaches the final terminal
status: it raises StackFailed exactly when that status has the FAILED code
and re-invokes the action once per list element. -/
theorem wait_loop_reaches_last (stack : Stack) (fin : Status)
    (hfin : fin.code = COMPLETE.code ∨ fin.code = FAILED.code) :
    ∀ (init : List Status) (lastStatus : Option Status) (s : Status),
      s.code ≠ COMPLETE.code → s.code ≠ FAILED.code →
      (∀ x ∈ init, x.code ≠ COMPLETE.code ∧ x.code ≠ FAILED.code) →
      (wait_loop stack none (init ++ [fin]) lastStatus s).2.2 =
        (if fin.code = FAILED.code then RunResult.stackFailed stack.fqn fin.reason
         else RunResult.status fin) ∧
      (wait_loop stack none (init ++ [fin]) lastStatus s).2.1.length =
        init.length + 1 := by
  intro init
  induction init with
  | nil =>
    intro lastStatus s hc hf _
    simp only [List.nil_append]
    rw [wait_loop_step stack none [fin] lastStatus s hc hf (by simp [tillReasonHit, truthyStr])]
    dsimp only
    rw [wait_loop_terminal stack none [] _ fin hfin]
    simp
  | cons x xs ih =>
    intro lastStatus s hc hf hnt
    simp only [List.cons_append]
    rw [wait_loop_step stack none (x :: (xs ++ [fin])) lastStatus s hc hf
      (by simp [tillReasonHit, truthyStr])]
    dsimp only
    have hx := hnt x (by simp)
    have := ih (if reasonChanged lastStatus s then some s else lastStatus) x hx.1 hx.2
      (fun y hy => hnt y (by simp [hy]))
    exact ⟨by simpa using this.1, by simpa using this.2⟩

/-- C2: for every action whose successive run results form a sequence of
non-terminal statuses ending in a FAILED status (the first not SKIPPED, so
polling is entered), deploy_stack with wait raises StackFailed carrying the
fully-qualified stack name and the final reason instead of returning a
Status. -/
theorem C2_deploy_failed (held : Option Stack) (stack : Stack)
    (init : List Status) (fin : Status)
    (hfail : fin.code = FAILED.code)
    (hnt : ∀ x ∈ init, x.code ≠ COMPLETE.code ∧ x.code ≠ FAILED.code)
    (hskip : ∀ x ∈ init.take 1, x.code ≠ SKIPPED.code) :
    (deploy_stack held (init ++ [fin]) (some stack) true).2.2 =
      RunResult.stackFailed stack.fqn fin.reason := by
  cases init with
  | nil =>
    unfold deploy_stack run_stack_action wait_for_stack
    simp only [List.nil_append]
    have hcond : (true && !(fin.code == SKIPPED.code)) = true := by
      simp [hfail, SKIPPED, FAILED]
    simp only [hcond, if_true]
    rw [wait_loop_terminal stack none [] (some fin) fin (Or.inr hfail)]
    simp [hfail]
  | cons x xs =>
    unfold deploy_stack run_stack_action wait_for_stack
    simp only [List.cons_append]
    have hx0 := hnt x (by simp)
    have hxs : x.code ≠ SKIPPED.code := hskip x (by simp)
    have hcond : (true && !(x.code == SKIPPED.code)) = true := by
      simp [hxs]
    simp only [hcond, if_true]
    have := wait_loop_reaches_last stack fin (Or.inr hfail) xs (some x) x hx0.1 hx0.2
      (fun y hy => hnt y (by simp [hy]))
    simp only [if_pos hfail] at this
    simpa using this.1

/-- C3: for every action whose successive run results form a sequence of
non-terminal statuses ending in a COMPLETE status (the first not SKIPPED),
deploy_stack with wait returns that terminal COMPLETE status and raises
nothing. -/
theorem C3_deploy_complete (held : Option Stack) (stack : Stack)
    (init : List Status) (fin : Status)
    (hcomp : fin.code = COMPLETE.code)
    (hnt : ∀ x ∈ init, x.code ≠ COMPLETE.code ∧ x.code ≠ FAILED.code)
    (hskip : ∀ x ∈ init.take 1, x.code ≠ SKIPPED.code) :
    (deploy_stack held (init ++ [fin]) (some stack) true).2.2 =
      RunResult.status fin := by
  have hnf : fin.code ≠ FAILED.code := by
    rw [hcomp]
    simp [COMPLETE, FAILED]
  cases init with
  | nil =>
    unfold deploy_stack run_stack_action wait_for_stack
    simp only [List.nil_append]
    have hcond : (true && !(fin.code == SKIPPED.code)) = true := by
      simp [hcomp, SKIPPED, COMPLETE]
    simp only [hcond, if_true]
    rw [wait_loop_terminal stack none [] (some fin) fin (Or.inl hcomp)]
    simp [hnf]
  | cons x xs =>
    unfold deploy_stack run_stack_action wait_for_stack
    simp only [List.cons_append]
    have hx0 := hnt x (by simp)
    have hxs : x.code ≠ SKIPPED.code := hskip x (by simp)
    have hcond : (true && !(x.code == SKIPPED.code)) = true := by
      simp [hxs]
    simp only [hcond, if_true]
    have := wait_loop_reaches_last stack fin (Or.inl hcomp) xs (some x) x hx0.1 hx0.2
      (fun y hy => hnt y (by simp [hy]))
    simp only [if_neg hnf] at this
    simpa using this.1

/-- C2 witness: at the concrete sequence SUBMITTED then FAILED(boom),
deploy_stack with wait raises StackFailed with the fully-qualified name and
the reason boom. -/
theorem C2_witness :
    (deploy_stack none ([SUBMITTED] ++ [{ FAILED with reason := some "boom" }])
        (some { name := "stack", fqn := "ns-stack" }) true).2.2 =
      RunResult.stackFailed "ns-stack" (some "boom") :=
  C2_deploy_failed none { name := "stack", fqn := "ns-stack" } [SUBMITTED]
    { FAILED with reason := some "boom" } (by decide) (by decide) (by decide)

/-- C3 witness: at the concrete sequence SUBMITTED then COMPLETE,
deploy_stack with wait returns the COMPLETE status. -/
theorem C3_witness :
    (deploy_stack none ([SUBMITTED] ++ [COMPLETE])
        (some { name := "stack", fqn := "ns-stack" }) true).2.2 =
      RunResult.status COMPLETE :=
  C3_deploy_complete none { name := "stack", fqn := "ns-stack" } [SUBMITTED]
    COMPLETE (by decide) (by decide) (by decide)

/-- C4: when the first invocation of the action returns a SKIPPED status,
deploy_stack and destroy_stack with wait return it immediately: exactly one
action invocation (with initial status PENDING) happens, whatever results
the action would have produced afterwards — the polling loop is never
entered. -/
theorem C4_skipped_short_circuit (held : Option Stack) (stack : Stack)
    (rest : List Status) (s0 : Status) (h : s0.code = SKIPPED.code) :
    deploy_stack held (s0 :: rest) (some stack) true
      = ([log_stack stack s0], [PENDING], RunResult.status s0) ∧
    destroy_stack held (s0 :: rest) (some stack) true
      = ([log_stack stack s0], [PENDING], RunResult.status s0) := by
  unfold deploy_stack destroy_stack run_stack_action
  simp [h]

/-- C4 witness: concrete SKIPPED first result followed by a FAILED result
that is never requested. -/
theorem C4_witness :
    deploy_stack none (SKIPPED :: [FAILED]) (some { name := "stack", fqn := "ns-stack" }) true
      = ([log_stack { name := "stack", fqn := "ns-stack" } SKIPPED], [PENDING],
         RunResult.status SKIPPED) ∧
    destroy_stack none (SKIPPED :: [FAILED]) (some { name := "stack", fqn := "ns-stack" }) true
      = ([log_stack { name := "stack", fqn := "ns-stack" } SKIPPED], [PENDING],
         RunResult.status SKIPPED) :=
  C4_skipped_short_circuit none { name := "stack", fqn := "ns-stack" } [FAILED] SKIPPED rfl

/-- C5: with wait false, deploy_stack and destroy_stack invoke the action
exactly once — with initial status PENDING — and return its result, whatever
Status it is and whatever the action would have returned on later
invocations. -/
theorem C5_no_wait_single_invocation (held : Option Stack) (stack : Stack)
    (rest : List Status) (s0 : Status) :
    deploy_stack held (s0 :: rest) (some stack) false
      = ([log_stack stack s0], [PENDING], RunResult.status s0) ∧
    destroy_stack held (s0 :: rest) (some stack) false
      = ([log_stack stack s0], [PENDING], RunResult.status s0) := by
  unfold deploy_stack destroy_stack run_stack_action
  simp

/-- C6: with no explicit stack argument and no held stack, deploy_stack and
destroy_stack raise ValueError (the missing-handle error, message
stack required) with no log emitted and no action invocation. -/
theorem C6_no_stack_error (results : List Status) (wait : Bool) :
    deploy_stack none results none wait
      = ([], [], RunResult.valueError "stack required") ∧
    destroy_stack none results none wait
      = ([], [], RunResult.valueError "stack required") := by
  unfold deploy_stack destroy_stack run_stack_action
  simp

/-- Running the loop with a till_reason through non-terminal statuses none
of which hit the till_reason, up to a non-terminal status whose reason
equals the non-empty till_reason, stops at that attempt: it returns that
status and re-invokes the action exactly once per skipped-over element. -/
theorem wait_loop_till_stops (stack : Stack) (t : String) (ht : ¬ t = "")
    (m : Status) (hmc : m.code ≠ COMPLETE.code) (hmf : m.code ≠ FAILED.code)
    (hmr : m.reason = some t) (rest : List Status) :
    ∀ (init : List Status) (lastStatus : Option Status) (s : Status),
      s.code ≠ COMPLETE.code → s.code ≠ FAILED.code → s.reason ≠ some t →
      (∀ x ∈ init, x.code ≠ COMPLETE.code ∧ x.code ≠ FAILED.code ∧ x.reason ≠ some t) →
      (wait_loop stack (some t) (init ++ m :: rest) lastStatus s).2.2 =
        RunResult.status m ∧
      (wait_loop stack (some t) (init ++ m :: rest) lastStatus s).2.1.length =
        init.length + 1 := by
  intro init
  induction init with
  | nil =>
    intro lastStatus s hc hf hr _
    simp only [List.nil_append]
    rw [wait_loop_step stack (some t) (m :: rest) lastStatus s hc hf
      (by simp [tillReasonHit, hr])]
    dsimp only
    rw [wait_loop_till_exit stack (some t) rest _ m hmc hmf
      (by simp [tillReasonHit, truthyStr, hmr, ht])]
    simp
  | cons x xs ih =>
    intro lastStatus s hc hf hr hnt
    simp only [List.cons_append]
    rw [wait_loop_step stack (some t) (x :: (xs ++ m :: rest)) lastStatus s hc hf
      (by simp [tillReasonHit, hr])]
    dsimp only
    have hx := hnt x (by simp)
    have := ih (if reasonChanged lastStatus s then some s else lastStatus) x hx.1 hx.2.1 hx.2.2
      (fun y hy => hnt y (by simp [hy]))
    exact ⟨by simpa using this.1, by simpa using this.2⟩

/-- C7: a polling-wait invocation given a till_reason stops early — if the
statuses polled before any COMPLETE or FAILED are non-terminal and the
reason of one of them equals the non-empty till_reason, the loop stops at
that attempt, returning that non-terminal status, with one action
invocation per status polled before the hit and none afterwards. -/
theorem C7_till_reason_early_exit (held : Option Stack) (stack : Stack)
    (t : String) (s0 m : Status) (init rest : List Status)
    (ht : ¬ t = "")
    (h0 : s0.code ≠ COMPLETE.code ∧ s0.code ≠ FAILED.code ∧ s0.reason ≠ some t)
    (hinit : ∀ x ∈ init, x.code ≠ COMPLETE.code ∧ x.code ≠ FAILED.code ∧ x.reason ≠ some t)
    (hm : m.code ≠ COMPLETE.code ∧ m.code ≠ FAILED.code) (hmr : m.reason = some t) :
    (wait_for_stack held (init ++ m :: rest) (some s0) (some stack) (some t)).2.2 =
      RunResult.status m ∧
    (wait_for_stack held (init ++ m :: rest) (some s0) (some stack) (some t)).2.1.length =
      init.length + 1 := by
  unfold wait_for_stack
  exact wait_loop_till_stops stack t ht m hm.1 hm.2 hmr rest init (some s0) s0
    h0.1 h0.2.1 h0.2.2 hinit

/-- C7 witness: with till_reason CREATE_IN_PROGRESS and an action sequence
whose second polled status carries that reason, the loop returns that
status after exactly one loop invocation, leaving the later COMPLETE
unconsumed. -/
theorem C7_witness :
    (wait_for_stack none
        ([SUBMITTED] ++ { SUBMITTED with reason := some "CREATE_IN_PROGRESS" } :: [COMPLETE])
        (some SUBMITTED) (some { name := "stack", fqn := "ns-stack" })
        (some "CREATE_IN_PROGRESS")).2.2 =
      RunResult.status { SUBMITTED with reason := some "CREATE_IN_PROGRESS" } ∧
    (wait_for_stack none
        ([SUBMITTED] ++ { SUBMITTED with reason := some "CREATE_IN_PROGRESS" } :: [COMPLETE])
        (some SUBMITTED) (some { name := "stack", fqn := "ns-stack" })
        (some "CREATE_IN_PROGRESS")).2.1.length = 2 :=
  C7_till_reason_early_exit none { name := "stack", fqn := "ns-stack" }
    "CREATE_IN_PROGRESS" SUBMITTED { SUBMITTED with reason := some "CREATE_IN_PROGRESS" }
    [SUBMITTED] [COMPLETE]
    (by decide) (by decide) (by decide) (by decide) rfl

/-- C8: every logged status line is stack name, a colon, the status name,
with a parenthesized reason appended when the reason is present (truthy),
at severity notice for the SUBMITTED code, success for COMPLETE, error for
FAILED and info otherwise; and the concrete sequence SUBMITTED,
SUBMITTED(rollback), COMPLETE under wait produces exactly three non-debug
log lines — one per reason change plus the guaranteed terminal line, with
no duplicates. -/
theorem C8_log_lines :
    (∀ (stack : Stack) (status : Status),
      (log_stack stack status).msg =
        stack.name ++ ":" ++ status.name ++
          (match status.reason with
           | some r => if r = "" then "" else " (" ++ r ++ ")"
           | none => "") ∧
      (log_stack stack status).severity =
        (if status.code = SUBMITTED.code then Severity.notice
         else if status.code = COMPLETE.code then Severity.success
         else if status.code = FAILED.code then Severity.error
         else Severity.info)) ∧
    (deploy_stack none [SUBMITTED, { SUBMITTED with reason := some "rollback" }, COMPLETE]
        (some { name := "stack", fqn := "ns-stack" }) true).1.filter
        (fun e => !(e.severity == Severity.debug)) =
      [{ severity := Severity.notice, msg := "stack:submitted" },
       { severity := Severity.notice, msg := "stack:submitted (rollback)" },
       { severity := Severity.success, msg := "stack:complete" }] := by
  constructor
  · intro stack status
    unfold log_stack reasonSuffix
    constructor
    · split_ifs <;> rfl
    · split_ifs <;> rfl
  · rfl

/-- C10: deploy_stack and destroy_stack assign no attribute of the hook —
on every input, whether they return a status, raise the missing-stack
ValueError or raise StackFailed, the held fields (args, blueprint, context,
provider, stack, stack_name) are unchanged. -/
theorem C10_state_frame (h : HookState) (results : List Status)
    (stackArg : Option Stack) (wait : Bool) :
    (h.deploy_stackS results stackArg wait).1 = h ∧
    (h.destroy_stackS results stackArg wait).1 = h :=
  ⟨rfl, rfl⟩

end Runway
